import Mathlib

/-!
Verification of the red-alert-meshtastic core against its specification.

This file gives a shallow embedding in Lean 4 of the two source files of the
repository (`src/api.rs` and `src/main.rs`) and proves or refutes the frozen
claims about them.

Modelling conventions:
* Rust `String` is Lean `String`; Rust `u32`/`u64`/`usize` are `Nat` (with
  explicit wrapping `% 2 ^ 64` where the Rust code performs an `as u64` cast);
  `i64` is `Int`.
* `serde_json::Value` is the inductive `Json` below; serde's typed
  deserialization into the `Alert` / `HistoryAlert` structs is embedded by the
  `decode*` functions, following serde semantics (an `Option` field is `None`
  when absent or JSON `null`, a present ill-typed field is an error, unknown
  fields are ignored, a struct deserializes only from a JSON object).
* External libraries are abstracted to their observable outcome at the call
  site: the HTTP layer (`reqwest`) becomes a `FetchResponse` value, JSON text
  parsing (`serde_json::from_str`) becomes a `parseJson : String → Option Json`
  argument, and RFC3339 date parsing (`chrono`) becomes a
  `parseRfc : String → Except String Int` argument returning the parsed
  timestamp in seconds since the Unix epoch (`DateTime::timestamp`).
* Real time becomes a `Nat` clock measured in seconds; `tokio::time::sleep d`
  advances the clock by exactly `d` (the idealized monotone clock), and
  spawning the external `meshtastic` process is instantaneous.  Each spawn of
  the external transport is abstracted to an `Outcome` drawn from an oracle
  `outcomes : Nat → Outcome` indexed by a running attempt counter; the record
  carries both whether `Command::spawn` succeeded and the exit code of the
  spawned process, so that which of the two the code consults is observable.
* `Result`/`?`/`.unwrap()` become `Except`; an `.unwrap()` on an `Err` is the
  distinguished `CycleOutcome.panicked` (the process aborts).
-/

/-! ## String helpers (Rust `str::contains` on a substring) -/

/-- Does the character list `p` occur as a leading segment of `s`? -/
def startsWithList : List Char → List Char → Bool
  | [], _ => true
  | _ :: _, [] => false
  | p :: ps, c :: cs => p == c && startsWithList ps cs

/-- Does the character list `pat` occur contiguously anywhere inside `s`? -/
def hasSubList (pat : List Char) : List Char → Bool
  | [] => startsWithList pat []
  | c :: cs => startsWithList pat (c :: cs) || hasSubList pat cs

/-- Rust `s.contains(pat)` for string slices: substring occurrence. -/
def containsSub (s pat : String) : Bool :=
  hasSubList pat.data s.data

/-- Rust `str::trim`: strip leading and trailing whitespace (Lean's
`Char.isWhitespace` covers the whitespace characters occurring in feeds;
Rust also strips some rarer Unicode whitespace). -/
def trimStr (s : String) : String :=
  String.mk
    (((s.data.dropWhile Char.isWhitespace).reverse.dropWhile
        Char.isWhitespace).reverse)

/-- Rust `String::to_lowercase`, characterwise (exact on the ASCII alert-type
labels the code compares against). -/
def toLowerStr (s : String) : String :=
  String.mk (s.data.map Char.toLower)

/-! ## JSON values (`serde_json::Value`) -/

/-- The `serde_json::Value` type.  Numbers are modelled as integers; the feed
fields relevant to the claims are strings, arrays and objects. -/
inductive Json where
  | null
  | bool (b : Bool)
  | num (n : Int)
  | str (s : String)
  | arr (elems : List Json)
  | obj (fields : List (String × Json))

/-- Field lookup in an object's field list (first occurrence wins, as in a
`serde_json` map built from parsed JSON). -/
def fieldLookup (fields : List (String × Json)) (key : String) : Option Json :=
  (fields.find? (fun p => p.1 == key)).map (fun p => p.2)

/-- `serde_json::Value::get(key)` with a string key: a field of an object,
`None` on any other value (including arrays). -/
def Json.getField : Json → String → Option Json
  | .obj fields, key => fieldLookup fields key
  | _, _ => none

/-- Is the value a JSON array (`Value::is_array`)? -/
def Json.isArr : Json → Bool
  | .arr _ => true
  | _ => false

/-- Is the value a JSON object? -/
def Json.isObj : Json → Bool
  | .obj _ => true
  | _ => false

/-! ## Typed structs of `src/api.rs` -/

/-- The live-feed struct `Alert` (serde renames: `data` → `cities`,
`cat` → `category`, `desc` → `instructions`). -/
structure Alert where
  cities : Option (List String)
  category : Option String
  instructions : Option String
deriving DecidableEq

/-- The historical-feed struct `HistoryAlert`. -/
structure HistoryAlert where
  alertDate : Option String
  data : Option String
  category : Option String
deriving DecidableEq

/-- The canonical alert `AlertResult` produced by normalization. -/
structure AlertResult where
  alert_type : String
  cities : List String
  instructions : Option String
deriving DecidableEq

/-! ## serde deserialization of the two structs -/

/-- Deserializing a JSON value into a `String` (strict: only a JSON string). -/
def decodeString : Json → Except String String
  | .str s => .ok s
  | _ => .error "invalid type: expected a string"

/-- Deserializing a list of JSON values into `Vec<String>` elementwise. -/
def decodeStrings : List Json → Except String (List String)
  | [] => .ok []
  | .str s :: rest =>
    match decodeStrings rest with
    | .ok ss => .ok (s :: ss)
    | .error e => .error e
  | _ :: _ => .error "invalid type: expected a string"

/-- Deserializing a JSON value into `Vec<String>`. -/
def decodeStringList : Json → Except String (List String)
  | .arr es => decodeStrings es
  | _ => .error "invalid type: expected an array"

/-- serde's handling of an `Option<T>` field: absent or `null` is `None`;
otherwise the value must deserialize as `T`. -/
def decodeOpt {α : Type} (dec : Json → Except String α) :
    Option Json → Except String (Option α)
  | none => .ok none
  | some .null => .ok none
  | some j =>
    match dec j with
    | .ok a => .ok (some a)
    | .error e => .error e

/-- `serde_json::from_value::<Alert>`. -/
def decodeAlert : Json → Except String Alert
  | .obj fields =>
    match decodeOpt decodeStringList (fieldLookup fields "data") with
    | .error e => .error e
    | .ok cities =>
      match decodeOpt decodeString (fieldLookup fields "cat") with
      | .error e => .error e
      | .ok category =>
        match decodeOpt decodeString (fieldLookup fields "desc") with
        | .error e => .error e
        | .ok instructions => .ok ⟨cities, category, instructions⟩
  | _ => .error "invalid type: expected struct Alert"

/-- `serde_json::from_value::<HistoryAlert>` for one entry. -/
def decodeHistoryAlert : Json → Except String HistoryAlert
  | .obj fields =>
    match decodeOpt decodeString (fieldLookup fields "alertDate") with
    | .error e => .error e
    | .ok alertDate =>
      match decodeOpt decodeString (fieldLookup fields "data") with
      | .error e => .error e
      | .ok data =>
        match decodeOpt decodeString (fieldLookup fields "category") with
        | .error e => .error e
        | .ok category => .ok ⟨alertDate, data, category⟩
  | _ => .error "invalid type: expected struct HistoryAlert"

/-- Elementwise deserialization of the history array. -/
def decodeHistoryItems : List Json → Except String (List HistoryAlert)
  | [] => .ok []
  | j :: rest =>
    match decodeHistoryAlert j with
    | .error e => .error e
    | .ok h =>
      match decodeHistoryItems rest with
      | .error e => .error e
      | .ok hs => .ok (h :: hs)

/-! ## Category tables (`src/api.rs` lines 181-218) -/

/-- Rust `str::parse::<u32>()`: an optional leading `+`, then one or more
ASCII digits, value below `2 ^ 32`; anything else fails. -/
def parseU32 (s : String) : Option Nat :=
  let chars :=
    match s.data with
    | '+' :: rest => rest
    | cs => cs
  if chars.isEmpty then none
  else if chars.all Char.isDigit then
    let v := chars.foldl (fun acc c => acc * 10 + (c.toNat - '0'.toNat)) 0
    if v < 2 ^ 32 then some v else none
  else none

/-- `get_alert_type_by_category` (live-feed code space). -/
def get_alert_type_by_category (category : String) : String :=
  match parseU32 category with
  | some 1 => "missiles"
  | some 2 => "general"
  | some 3 => "earthQuake"
  | some 4 => "radiologicalEvent"
  | some 5 => "tsunami"
  | some 6 => "hostileAircraftIntrusion"
  | some 7 => "hazardousMaterials"
  | some 13 => "terroristInfiltration"
  | some 101 => "missilesDrill"
  | some 102 => "generalDrill"
  | some 103 => "earthQuakeDrill"
  | some 104 => "radiologicalEventDrill"
  | some 105 => "tsunamiDrill"
  | some 106 => "hostileAircraftIntrusionDrill"
  | some 107 => "hazardousMaterialsDrill"
  | some 113 => "terroristInfiltrationDrill"
  | _ => "unknown"

/-- `get_alert_type_by_historical_category` (historical-feed code space). -/
def get_alert_type_by_historical_category (category : String) : String :=
  match parseU32 category with
  | some 1 => "missiles"
  | some 2 => "hostileAircraftIntrusion"
  | some 3 => "general"
  | some 4 => "general"
  | some 7 => "earthQuake"
  | some 9 => "radiologicalEvent"
  | some 10 => "terroristInfiltration"
  | some 11 => "tsunami"
  | some 12 => "hazardousMaterials"
  | _ => "unknown"

/-! ## Normalization (`extract_alert_from_json` and the history variant) -/

/-- The Hebrew test-marker substring checked by both feed paths. -/
def testMarker : String := "בדיקה"

/-- The body of the `for item in history` loop of
`extract_alert_from_history_json` (`src/api.rs` lines 156-176), folding the
mutable `alert` through the entries.  `parseRfc` abstracts
`chrono::DateTime::parse_from_rfc3339(..)  .timestamp()` to its outcome (an
`Err` aborts the whole function via `?`); the `as u64` cast wraps modulo
`2 ^ 64`; the `u64` subtraction `now - alert_time` is modelled as truncated
`Nat` subtraction, which agrees with Rust whenever `alert_time ≤ now`. -/
def historyFold (parseRfc : String → Except String Int) (now : Nat) :
    List HistoryAlert → AlertResult → Except String AlertResult
  | [], alert => .ok alert
  | item :: rest, alert =>
    match item.alertDate, item.data, item.category with
    | some alert_date, some city, some category =>
      match parseRfc alert_date with
      | .error e => .error e
      | .ok ts =>
        let alert_time := (Int.toNat (ts % (2 : Int) ^ 64)) / 1000
        if now - alert_time > 120 then historyFold parseRfc now rest alert
        else
          let trimmed_city := trimStr city
          if containsSub trimmed_city testMarker then
            historyFold parseRfc now rest alert
          else
            let cities' :=
              if trimmed_city ∈ alert.cities then alert.cities
              else alert.cities ++ [trimmed_city]
            historyFold parseRfc now rest
              ⟨get_alert_type_by_historical_category category, cities',
                alert.instructions⟩
    | _, _, _ => historyFold parseRfc now rest alert

/-- `extract_alert_from_history_json` (`src/api.rs` lines 146-179). -/
def extract_alert_from_history_json (parseRfc : String → Except String Int)
    (now : Nat) (j : Json) : Except String AlertResult :=
  match j with
  | .arr es =>
    match decodeHistoryItems es with
    | .error e => .error e
    | .ok history => historyFold parseRfc now history ⟨"none", [], none⟩
  | _ => .error "invalid type: expected a sequence"

/-- One iteration of the `for mut city in cities` loop of
`extract_alert_from_json` (`src/api.rs` lines 126-135): trim, skip test
entries, deduplicate preserving first-seen order. -/
def liveStep (acc : List String) (city : String) : List String :=
  let city := trimStr city
  if containsSub city testMarker then acc
  else if city ∈ acc then acc
  else acc ++ [city]

/-- The whole `for mut city in cities` loop. -/
def liveCitiesFold (cities : List String) : List String :=
  cities.foldl liveStep []

/-- `extract_alert_from_json` (`src/api.rs` lines 111-143). -/
def extract_alert_from_json (parseRfc : String → Except String Int) (now : Nat)
    (j : Json) : Except String AlertResult :=
  if j.isArr then extract_alert_from_history_json parseRfc now j
  else
    match decodeAlert j with
    | .error e => .error e
    | .ok alert_data =>
      let cities :=
        match alert_data.cities with
        | some cs => liveCitiesFold cs
        | none => []
      let ty :=
        match alert_data.category with
        | some category => get_alert_type_by_category category
        | none => "none"
      .ok ⟨ty, cities, alert_data.instructions⟩

/-! ## Feed client (`get_hfc_alerts_json`, `fetch_alert`) -/

/-- The observable outcome of the `reqwest` call: either a transport error or
a response with a status code and a body. -/
inductive FetchResponse where
  | netErr (msg : String)
  | response (status : Nat) (body : String)

/-- The canonical empty-alert payload returned on degraded fetches. -/
def emptyAlertJson : Json :=
  .obj [("type", .str "none"), ("cities", .arr [])]

/-- `get_hfc_alerts_json` (`src/api.rs` lines 45-107).  `parseJson` abstracts
`serde_json::from_str` on the body to its outcome. -/
def get_hfc_alerts_json (parseJson : String → Option Json) :
    FetchResponse → Except String Json
  | .netErr _ => .ok emptyAlertJson
  | .response status body =>
    if status == 200 then
      if (trimStr body).data.isEmpty then .ok emptyAlertJson
      else
        match parseJson body with
        | none => .error "Failed to parse the response body as JSON"
        | some j =>
          if (j.getField "data").isNone then .ok emptyAlertJson
          else .ok j
    else .ok emptyAlertJson

/-- `fetch_alert` (`src/api.rs` lines 38-42): fetch then normalize, with `?`
propagating either stage's error. -/
def fetch_alert (parseJson : String → Option Json)
    (parseRfc : String → Except String Int) (now : Nat)
    (resp : FetchResponse) : Except String AlertResult :=
  match get_hfc_alerts_json parseJson resp with
  | .error e => .error e
  | .ok j => extract_alert_from_json parseRfc now j

/-! ## Gazetteer and zone resolution (`src/main.rs`) -/

/-- One `cities.json` entry (`struct City`). -/
structure City where
  name : String
  name_en : String
  zone_en : String
deriving DecidableEq

/-- `get_zone_number` (`src/main.rs` lines 153-241): region label → zone. -/
def get_zone_number (zone_en : String) : Option Nat :=
  if zone_en ∈ ["Upper Galilee", "Confrontation Line", "North Golan",
      "South Golan", "Center Galilee"] then some 1
  else if zone_en ∈ ["HaMifratz", "HaCarmel", "Menashe"] then some 2
  else if zone_en ∈ ["Lower Galilee", "Beit She'an Valley", "HaAmakim",
      "Wadi Ara"] then some 3
  else if zone_en ∈ ["Sharon", "Yarkon", "Dan"] then some 4
  else if zone_en ∈ ["Shomron", "Jerusalem", "Yehuda", "Shfelat Yehuda",
      "Bika'a"] then some 5
  else if zone_en ∈ ["Gaza Envelope", "West Lachish", "Lachish",
      "HaShfela"] then some 6
  else if zone_en ∈ ["West Negev", "Center Negev", "South Negev", "Dead Sea",
      "Arava", "Eilat"] then some 7
  else none

/-- `find_zone_for_city` (`src/main.rs` lines 245-252): the zone of the first
gazetteer entry whose native name equals the city exactly; `none` when no
entry matches (and also when the first match carries an unknown region). -/
def find_zone_for_city (cities : List City) (city_name_he : String) :
    Option Nat :=
  match cities.find? (fun c => c.name == city_name_he) with
  | some c => get_zone_number c.zone_en
  | none => none

/-- `HashSet::insert`, determinized as append-if-absent on a duplicate-free
list (the code only consumes the set through membership and size). -/
def insertZone (zs : List Nat) (z : Nat) : List Nat :=
  if z ∈ zs then zs else zs ++ [z]

/-- One iteration of the `for city in alert_result.cities` zone-collection
loop of `process_alert` (`src/main.rs` lines 274-278). -/
def zoneStep (cities : List City) (zs : List Nat) (name : String) : List Nat :=
  match find_zone_for_city cities name with
  | some zone => insertZone zs zone
  | none => zs

/-- The whole zone-collection loop building `valid_zones`. -/
def collectValidZones (cities : List City) (names : List String) : List Nat :=
  names.foldl (zoneStep cities) []

/-! ## Dispatch engine (`MessageSender::send_message_with_retry`) -/

/-- The observable outcome of one `Command::spawn` of the radio transport:
whether the spawn itself succeeded, and the exit code the spawned process
eventually exits with.  The code reads only `spawned`; `exitCode` is carried
so that theorems can observe that the exit code is never consulted. -/
structure Outcome where
  spawned : Bool
  exitCode : Nat
deriving DecidableEq

/-- One transport invocation as recorded by the model: at `time`, on channel
`chan`, sending `message`, with outcome `outcome`. -/
structure Event where
  time : Nat
  chan : Nat
  message : String
  outcome : Outcome
deriving DecidableEq

/-- `struct MessageSender` (`src/main.rs` lines 87-96). -/
structure MessageSender where
  last_message_time : Option Nat
deriving DecidableEq

/-- Result of the `for attempt in 0..=retries` loop: the emitted attempt
events, the advanced oracle counter and clock, and the time of the successful
spawn when one happened (the loop returns at the first success). -/
structure LoopRes where
  events : List Event
  ctr : Nat
  now : Nat
  succTime : Option Nat
deriving DecidableEq

/-- The retry loop of `send_message_with_retry` (`src/main.rs` lines 113-140),
structured on the number of attempts still allowed (`retries + 1` at entry;
the argument reaching `1` corresponds to `attempt == retries`, where a spawn
failure returns the error instead of sleeping `delay` and retrying). -/
def attemptLoop (outcomes : Nat → Outcome) (chan : Nat) (message : String)
    (delay : Nat) : Nat → Nat → Nat → LoopRes
  | 0, ctr, now => ⟨[], ctr, now, none⟩
  | n + 1, ctr, now =>
    let o := outcomes ctr
    let ev : Event := ⟨now, chan, message, o⟩
    if o.spawned then ⟨[ev], ctr + 1, now, some now⟩
    else if n == 0 then ⟨[ev], ctr + 1, now, none⟩
    else
      let r := attemptLoop outcomes chan message delay n (ctr + 1) (now + delay)
      ⟨ev :: r.events, r.ctr, r.now, r.succTime⟩

/-- Result of `send_message_with_retry`: the updated sender state, oracle
counter and clock, the attempt events, and whether the call returned `Ok`. -/
structure SendRes where
  state : MessageSender
  ctr : Nat
  now : Nat
  events : List Event
  ok : Bool
deriving DecidableEq

/-- The global pacing wait opening `send_message_with_retry` (`src/main.rs`
lines 106-111): if less than 10 seconds elapsed since `last_message_time`,
sleep the remainder; returns the clock value at which the first attempt
runs. -/
def paceTime (st : MessageSender) (now : Nat) : Nat :=
  match st.last_message_time with
  | some last => if now - last < 10 then now + (10 - (now - last)) else now
  | none => now

/-- `send_message_with_retry` (`src/main.rs` lines 98-143): the pacing wait,
then the retry loop; a successful spawn stores its time into
`last_message_time`. -/
def send_message_with_retry (outcomes : Nat → Outcome) (st : MessageSender)
    (ctr now : Nat) (chan : Nat) (message : String) (retries delay : Nat) :
    SendRes :=
  let r := attemptLoop outcomes chan message delay (retries + 1) ctr
    (paceTime st now)
  match r.succTime with
  | some t => ⟨⟨some t⟩, r.ctr, r.now, r.events, true⟩
  | none => ⟨st, r.ctr, r.now, r.events, false⟩

/-! ## Message formatting (`src/main.rs` lines 280-285) -/

/-- One character under Rust's `Debug` escaping for strings
(`char::escape_debug`), exact for quotes, backslashes and the common control
characters; other printable characters pass through unchanged (the abstaction
is exact on every string appearing in the feed claims). -/
def rustDebugEscape (c : Char) : String :=
  if c == '"' then "\\\""
  else if c == '\\' then "\\\\"
  else if c == '\n' then "\\n"
  else if c == '\r' then "\\r"
  else if c == '\t' then "\\t"
  else String.singleton c

/-- Rust `format!("{:?}", s)` for a string `s`: the escaped content wrapped in
double quotes. -/
def rustDebug (s : String) : String :=
  "\"" ++ String.join (s.data.map rustDebugEscape) ++ "\""

/-- The `message` built by `process_alert`:
`format!("🚨{} - {:?}", alert_type, instructions)` when instructions are
present (note the `{:?}` Debug formatting), else `format!("🚨{}", ..)`. -/
def alertMessage (alert_type : String) (instructions : Option String) :
    String :=
  match instructions with
  | some ins => "🚨" ++ alert_type ++ " - " ++ rustDebug ins
  | none => "🚨" ++ alert_type

/-! ## The per-cycle pipeline (`process_alert`) and the poll loop -/

/-- How one poll cycle ended: `panicked` models the `.unwrap()` on an `Err`
from `fetch_alert` (the process aborts); `completed evs res` is a cycle that
ran to its `Ok`/`Err` return, emitting the transport events `evs`. -/
inductive CycleOutcome where
  | panicked
  | completed (events : List Event) (result : Except String Unit)

/-- The transport events of a cycle outcome. -/
def CycleOutcome.events : CycleOutcome → List Event
  | .panicked => []
  | .completed evs _ => evs

/-- Did the cycle abort the process? -/
def CycleOutcome.isPanic : CycleOutcome → Bool
  | .panicked => true
  | .completed _ _ => false

/-- Result of one `process_alert` call. -/
structure CycleRes where
  outcome : CycleOutcome
  state : MessageSender
  ctr : Nat
  now : Nat

/-- The per-zone send loop of `process_alert` (`src/main.rs` lines 293-298):
sends serially to each zone; the `?` on a failed send propagates the error,
skipping the remaining zones. -/
def sendToZones (outcomes : Nat → Outcome) (message : String) :
    List Nat → MessageSender → Nat → Nat →
    List Event × MessageSender × Nat × Nat × Except String Unit
  | [], st, ctr, now => ([], st, ctr, now, .ok ())
  | zone :: rest, st, ctr, now =>
    let r := send_message_with_retry outcomes st ctr now zone message 3 5
    if r.ok then
      let r2 := sendToZones outcomes message rest r.state r.ctr r.now
      (r.events ++ r2.1, r2.2)
    else (r.events, r.state, r.ctr, r.now, .error "Failed to send message")

/-- `process_alert` (`src/main.rs` lines 255-304), with the already-performed
fetch passed in as `fetched` (the code's first statement is
`fetch_alert(false).await.unwrap()`, so an `Err` fetch panics the process). -/
def process_alert (outcomes : Nat → Outcome) (cities : List City)
    (fetched : Except String AlertResult) (st : MessageSender)
    (ctr now : Nat) : CycleRes :=
  match fetched with
  | .error _ => ⟨.panicked, st, ctr, now⟩
  | .ok alert_result =>
    if !(containsSub alert_result.alert_type "none") then
      if containsSub (toLowerStr alert_result.alert_type) "drill"
          || containsSub (toLowerStr alert_result.alert_type) "test" then
        ⟨.completed [] (.ok ()), st, ctr, now⟩
      else
        let valid_zones := collectValidZones cities alert_result.cities
        let message :=
          alertMessage alert_result.alert_type alert_result.instructions
        if valid_zones.length > 6 then
          let r := send_message_with_retry outcomes st ctr now 0 message 3 5
          ⟨.completed r.events
              (if r.ok then .ok () else .error "Failed to send message"),
            r.state, r.ctr, r.now⟩
        else
          let r := sendToZones outcomes message valid_zones st ctr now
          ⟨.completed r.1 r.2.2.2.2, r.2.1, r.2.2.1, r.2.2.2.1⟩
    else ⟨.completed [] (.ok ()), st, ctr, now⟩

/-- The steady-state poll loop of `main` (`src/main.rs` lines 334-341) run on
a finite prefix of cycles, one pre-resolved fetch result per tick (ticks are
5 seconds apart).  Returns `false` when some cycle panicked (the process
crashed), `true` when every cycle was handled by the
`if let Err(e) = process_alert(..)` recovery and the loop went on. -/
def runPollLoop (outcomes : Nat → Outcome) (cities : List City) :
    MessageSender → Nat → Nat → List (Except String AlertResult) → Bool
  | _, _, _, [] => true
  | st, ctr, now, fetched :: rest =>
    let r := process_alert outcomes cities fetched st ctr now
    match r.outcome with
    | .panicked => false
    | .completed _ _ => runPollLoop outcomes cities r.state r.ctr (r.now + 5) rest

/-! ## Observables for the pacing and retry claims -/

/-- The times of the successful transport spawns among a list of events. -/
def successTimes (evs : List Event) : List Nat :=
  (evs.filter (fun e => e.outcome.spawned)).map Event.time

/-- One requested send in a process-lifetime trace: the environment lets
`gap` seconds pass, then `send_message_with_retry` is called for channel
`chan` with text `message` (with the constant retry budget 3 and delay 5 the
code uses). -/
structure SendCall where
  gap : Nat
  chan : Nat
  message : String

/-- Run a trace of send calls through the dispatch engine, accumulating all
transport events: models consecutive sends across the whole process
lifetime. -/
def runCalls (outcomes : Nat → Outcome) :
    List SendCall → MessageSender → Nat → Nat →
    List Event × MessageSender × Nat × Nat
  | [], st, ctr, now => ([], st, ctr, now)
  | c :: rest, st, ctr, now =>
    let r := send_message_with_retry outcomes st ctr (now + c.gap) c.chan
      c.message 3 5
    let r2 := runCalls outcomes rest r.state r.ctr r.now
    (r.events ++ r2.1, r2.2)

/-- The stored `last_message_time` as a (zero- or one-element) time list. -/
def lastList (st : MessageSender) : List Nat :=
  match st.last_message_time with
  | some l => [l]
  | none => []

/-- The last element of `ts`, or the default `d` when `ts` is empty. -/
def lastOr (ts : List Nat) (d : Option Nat) : Option Nat :=
  ts.foldl (fun _ t => some t) d

/-! ## Predicates used in the claim statements -/

/-- The degraded-fetch conditions of the claim: network failure, non-success
HTTP status, empty (after trimming) body, or a body that parses to JSON with
no `data` field. -/
def fetchDegraded (parseJson : String → Option Json) : FetchResponse → Prop
  | .netErr _ => True
  | .response status body =>
    status < 200 ∨ 299 < status ∨ (trimStr body).data.isEmpty = true ∨
    (∃ j, parseJson body = some j ∧ (j.getField "data").isNone = true)

/-- Is the JSON value a string? -/
def isStrB : Json → Bool
  | .str _ => true
  | _ => false

/-- A well-typed optional string field: absent, `null`, or a string. -/
def optStrOk : Option Json → Bool
  | none => true
  | some .null => true
  | some (.str _) => true
  | some _ => false

/-- A well-typed optional string-array field: absent, `null`, or an array of
strings. -/
def optStrListOk : Option Json → Bool
  | none => true
  | some .null => true
  | some (.arr es) => es.all isStrB
  | some _ => false

/-- A live-shape payload whose present fields are well-typed. -/
def liveWellTypedB : Json → Bool
  | .obj fields =>
    optStrListOk (fieldLookup fields "data")
      && optStrOk (fieldLookup fields "cat")
      && optStrOk (fieldLookup fields "desc")
  | _ => false

/-- One historical entry whose present fields are well-typed and, when the
entry is complete (all three fields strings), whose date string parses. -/
def historyEntryOkB (parseRfc : String → Except String Int) : Json → Bool
  | .obj fields =>
    optStrOk (fieldLookup fields "alertDate")
      && optStrOk (fieldLookup fields "data")
      && optStrOk (fieldLookup fields "category")
      && (match fieldLookup fields "alertDate", fieldLookup fields "data",
            fieldLookup fields "category" with
          | some (.str d), some (.str _), some (.str _) =>
            (parseRfc d).toOption.isSome
          | _, _, _ => true)
  | _ => false

/-- A historical-shape payload all of whose entries are well-typed. -/
def historyWellTypedB (parseRfc : String → Except String Int) : Json → Bool
  | .arr es => es.all (historyEntryOkB parseRfc)
  | _ => false

/-- A decoded history entry whose complete form guarantees a parseable
date. -/
def entryParseOk (parseRfc : String → Except String Int)
    (h : HistoryAlert) : Prop :=
  ∀ d, h.alertDate = some d → h.data.isSome = true → h.category.isSome = true →
    (parseRfc d).toOption.isSome = true

/-! ## Claim C1: suppression of none/drill/test alerts -/

/-- C1: for every `CanonicalAlert` whose `alert_type` equals `"none"`, or
whose `alert_type` case-insensitively contains the substring `"drill"` or
`"test"`, the dispatch cycle invokes no external send: the cycle's transport
event list is empty. -/
theorem C1_suppressed_alert_sends_nothing (outcomes : Nat → Outcome)
    (cities : List City) (alert : AlertResult) (st : MessageSender)
    (ctr now : Nat)
    (h : alert.alert_type = "none"
        ∨ containsSub (toLowerStr alert.alert_type) "drill" = true
        ∨ containsSub (toLowerStr alert.alert_type) "test" = true) :
    (process_alert outcomes cities (Except.ok alert) st ctr now).outcome.events
      = [] := by
  rcases h with h | h | h
  · have hc : containsSub alert.alert_type "none" = true := by rw [h]; rfl
    simp [process_alert, hc, CycleOutcome.events]
  · by_cases hn : containsSub alert.alert_type "none"
    · simp [process_alert, hn, CycleOutcome.events]
    · simp [process_alert, hn, h, CycleOutcome.events]
  · by_cases hn : containsSub alert.alert_type "none"
    · simp [process_alert, hn, CycleOutcome.events]
    · simp [process_alert, hn, h, CycleOutcome.events]

/-- C1 witness: the drill alert type `"missilesDrill"` produces zero
transport events. -/
theorem C1_suppressed_alert_sends_nothing_witness :
    (process_alert (fun _ => ⟨true, 0⟩) []
        (Except.ok ⟨"missilesDrill", ["תל אביב"], none⟩) ⟨none⟩ 0 0
      ).outcome.events = [] :=
  C1_suppressed_alert_sends_nothing (fun _ => ⟨true, 0⟩) []
    ⟨"missilesDrill", ["תל אביב"], none⟩ ⟨none⟩ 0 0 (Or.inr (Or.inl rfl))

/-! ## Claim C2: a malformed feed body crashes the process -/

/-- C2 (refuting theorem): a single feed response with HTTP 200 and the
non-empty, non-JSON body `"not json"` makes `fetch_alert` return an error,
which `process_alert` immediately `.unwrap()`s: the poll loop aborts
(`runPollLoop = false`) instead of recovering the cycle as empty-alert.  The
claim (and the recovery comment in `main`) say the loop must survive this. -/
theorem C2_malformed_body_crashes_loop :
    runPollLoop (fun _ => ⟨true, 0⟩) [] ⟨none⟩ 0 0
      [fetch_alert (fun _ => none) (fun _ => Except.ok 0) 0
        (.response 200 "not json")] = false := rfl

/-! ## Claim C3: staleness filtering of historical entries -/

/-- C3 (refuting theorem): a complete historical entry only 100 seconds old
(`now = 1700000200`, entry timestamp 1700000100 seconds) is discarded, because
the code divides the seconds timestamp by 1000 (`timestamp() as u64 / 1000`,
a slip: `timestamp()` already returns seconds), making `now - alert_time`
about `1.698e9 > 120`.  The claim says an entry with
`now - entry_timestamp ≤ 120` must be retained (here it would contribute
locality `"תל אביב"` and type `"missiles"`); the code returns the empty
alert. -/
theorem C3_fresh_history_entry_discarded :
    extract_alert_from_history_json (fun _ => Except.ok 1700000100) 1700000200
      (.arr [.obj [("alertDate", .str "2023-11-14T22:15:00+02:00"),
        ("data", .str "תל אביב"), ("category", .str "1")]])
      = .ok ⟨"none", [], none⟩ := rfl

/-! ## Claim C4: which payloads normalize successfully -/

/-- C4 counterexample: the payload `[5]` is a JSON array (the historical
shape), but `normalize` fails on it — deserializing the entry `5` into the
`HistoryAlert` struct errors — refuting "for every payload that is a JSON
array or a JSON object, normalize succeeds". -/
theorem C4_counterexample :
    (extract_alert_from_json (fun _ => Except.ok 0) 0
        (Json.arr [Json.num 5])).toOption = none := rfl

/-! ## Claim C7: attempt success is decided by spawn, not exit code -/

/-- C7 counterexample: with a transport whose process always spawns but exits
with code 1 (failure by exit-code), the send nevertheless returns `Ok` on the
first attempt: success is decided by `Command::spawn` succeeding, and the exit
code is never consulted (the child is not waited on). -/
theorem C7_counterexample :
    (send_message_with_retry (fun _ => ⟨true, 1⟩) ⟨none⟩ 0 0 4 "m" 3 5).ok
        = true ∧
    (send_message_with_retry (fun _ => ⟨true, 1⟩) ⟨none⟩ 0 0 4 "m" 3 5
      ).events.all (fun e => e.outcome.exitCode == 1) = true :=
  ⟨rfl, rfl⟩

/-! ## Claim C8: degraded fetches return the canonical empty-alert payload -/

/-- C8: for every feed response with non-success HTTP status, network
failure, empty response body, or parsed JSON lacking a `data` field, the
fetch returns the canonical empty-alert payload
`{type: "none", cities: []}` rather than an error. -/
theorem C8_degraded_fetch_returns_empty_alert
    (parseJson : String → Option Json) (resp : FetchResponse)
    (h : fetchDegraded parseJson resp) :
    get_hfc_alerts_json parseJson resp = .ok emptyAlertJson := by
  cases resp with
  | netErr msg => rfl
  | response status body =>
    by_cases hs : status == 200
    · have hs' : status = 200 := by
        simpa using hs
      subst hs'
      rcases h with h | h | h | h
      · omega
      · omega
      · simp [get_hfc_alerts_json, h]
      · rcases h with ⟨j, hj, hd⟩
        by_cases hb : (trimStr body).data.isEmpty
        · simp [get_hfc_alerts_json, hb]
        · simp [get_hfc_alerts_json, hb, hj, hd]
    · simp [get_hfc_alerts_json, hs]

/-- C8 witness: an HTTP 500 response yields the empty-alert payload. -/
theorem C8_degraded_fetch_returns_empty_alert_witness :
    get_hfc_alerts_json (fun _ => none) (.response 500 "oops")
      = .ok emptyAlertJson :=
  C8_degraded_fetch_returns_empty_alert (fun _ => none) (.response 500 "oops")
    (Or.inr (Or.inl (by norm_num)))

/-! ## Claim C10: the dispatched message text -/

/-- C10 counterexample: the live alert `("missiles", instructions
`"Rocket fire"`)` dispatched to the single-entry gazetteer
`[⟨"תל אביב", "Tel Aviv", "Dan"⟩]` sends exactly one message, whose text is
`🚨missiles - "Rocket fire"` — the `format!("{:?}")` Debug rendering wraps
the instructions in quotes — and not the claimed exact text
`🚨missiles - Rocket fire`. -/
theorem C10_counterexample :
    (process_alert (fun _ => ⟨true, 0⟩) [⟨"תל אביב", "Tel Aviv", "Dan"⟩]
        (Except.ok ⟨"missiles", ["תל אביב"], some "Rocket fire"⟩) ⟨none⟩ 0 0
      ).outcome.events.map Event.message = ["🚨missiles - \"Rocket fire\""] ∧
    ("🚨missiles - \"Rocket fire\"" == "🚨missiles - Rocket fire") = false :=
  ⟨rfl, rfl⟩

/-! ## Claim C9: test-marker localities never reach the canonical alert -/

/-- The live-path loop step preserves "no accumulated locality contains the
test marker". -/
theorem liveStep_no_marker (acc : List String) (city : String)
    (hacc : ∀ c ∈ acc, containsSub c testMarker = false) :
    ∀ c ∈ liveStep acc city, containsSub c testMarker = false := by
  intro c hc
  unfold liveStep at hc
  by_cases hx : containsSub (trimStr city) testMarker = true
  · simp only [hx, if_true] at hc
    exact hacc c hc
  · simp only [hx, Bool.false_eq_true, if_false] at hc
    by_cases hmem : trimStr city ∈ acc
    · rw [if_pos hmem] at hc
      exact hacc c hc
    · rw [if_neg hmem] at hc
      rcases List.mem_append.mp hc with h | h
      · exact hacc c h
      · rcases List.mem_singleton.mp h with rfl
        simpa using hx

/-- The live-path loop only ever accumulates marker-free localities. -/
theorem liveCitiesFold_no_marker (cities : List String) :
    ∀ c ∈ liveCitiesFold cities, containsSub c testMarker = false := by
  unfold liveCitiesFold
  suffices h : ∀ acc, (∀ c ∈ acc, containsSub c testMarker = false) →
      ∀ c ∈ cities.foldl liveStep acc, containsSub c testMarker = false by
    exact h [] (by simp)
  induction cities with
  | nil => intro acc hacc c hc; exact hacc c hc
  | cons x xs ih =>
    intro acc hacc c hc
    rw [List.foldl_cons] at hc
    exact ih (liveStep acc x) (liveStep_no_marker acc x hacc) c hc

/-- The history-path fold only ever accumulates marker-free localities. -/
theorem historyFold_no_marker (parseRfc : String → Except String Int)
    (now : Nat) :
    ∀ (items : List HistoryAlert) (alert : AlertResult),
      (∀ c ∈ alert.cities, containsSub c testMarker = false) →
      ∀ r, historyFold parseRfc now items alert = .ok r →
      ∀ c ∈ r.cities, containsSub c testMarker = false := by
  intro items
  induction items with
  | nil =>
    intro alert hacc r hr c hc
    simp only [historyFold] at hr
    cases hr
    exact hacc c hc
  | cons item rest ih =>
    obtain ⟨ad, dt, ct⟩ := item
    intro alert hacc r hr c hc
    rcases ad with _ | d <;> rcases dt with _ | city <;>
      rcases ct with _ | category <;> simp only [historyFold] at hr
    all_goals try exact ih alert hacc r hr c hc
    rcases hp : parseRfc d with e | ts <;> simp only [hp] at hr
    · exact absurd hr (by simp)
    · by_cases hstale : now - Int.toNat (ts % (2 : Int) ^ 64) / 1000 > 120
      · rw [if_pos hstale] at hr
        exact ih alert hacc r hr c hc
      · rw [if_neg hstale] at hr
        by_cases hmark : containsSub (trimStr city) testMarker = true
        · rw [if_pos hmark] at hr
          exact ih alert hacc r hr c hc
        · rw [if_neg hmark] at hr
          refine ih _ ?_ r hr c hc
          intro c' hc'
          by_cases hmem : trimStr city ∈ alert.cities
          · simp only [hmem, if_true] at hc'
            exact hacc c' hc'
          · simp [hmem] at hc'
            rcases hc' with h | h
            · exact hacc c' h
            · rcases h with rfl
              simpa using hmark

/-- C9: for every locality (in either feed schema) whose name contains the
test-marker substring `"בדיקה"`, normalization excludes that locality: no
locality of the resulting `CanonicalAlert` contains the marker (in
particular, a marker-bearing input locality never appears in the output). -/
theorem C9_test_marker_localities_excluded
    (parseRfc : String → Except String Int) (now : Nat) (j : Json)
    (r : AlertResult)
    (hr : extract_alert_from_json parseRfc now j = .ok r) :
    ∀ c ∈ r.cities, containsSub c testMarker = false := by
  intro c hc
  rw [extract_alert_from_json] at hr
  by_cases ha : j.isArr = true
  · rw [if_pos ha] at hr
    cases j with
    | arr es =>
      simp only [extract_alert_from_history_json] at hr
      rcases hd : decodeHistoryItems es with e | history <;>
        simp only [hd] at hr
      · exact absurd hr (by simp)
      · exact historyFold_no_marker parseRfc now history ⟨"none", [], none⟩
          (by simp) r hr c hc
    | null => simp [Json.isArr] at ha
    | bool b => simp [Json.isArr] at ha
    | num n => simp [Json.isArr] at ha
    | str s => simp [Json.isArr] at ha
    | obj fields => simp [Json.isArr] at ha
  · rw [if_neg ha] at hr
    rcases hd : decodeAlert j with e | alert_data <;> simp only [hd] at hr
    · exact absurd hr (by simp)
    · obtain ⟨ocs, ocat, oins⟩ := alert_data
      injection hr with h
      subst h
      rcases ocs with _ | cs
      · simp at hc
      · exact liveCitiesFold_no_marker cs c (by simpa using hc)

/-- C9 witness: a live payload with a marker-bearing locality and a clean
locality normalizes to just the clean locality, which is marker-free. -/
theorem C9_test_marker_localities_excluded_witness :
    extract_alert_from_json (fun _ => Except.ok 0) 0
        (Json.obj [("data", Json.arr [Json.str "תל אביב",
          Json.str "אשדוד - בדיקה"]), ("cat", Json.str "1")])
      = .ok ⟨"missiles", ["תל אביב"], none⟩ ∧
    containsSub "תל אביב" testMarker = false :=
  ⟨rfl, C9_test_marker_localities_excluded (fun _ => Except.ok 0) 0
    (Json.obj [("data", Json.arr [Json.str "תל אביב",
      Json.str "אשדוד - בדיקה"]), ("cat", Json.str "1")])
    ⟨"missiles", ["תל אביב"], none⟩ rfl "תל אביב" (by simp)⟩

/-! ## Claim C4: the amended success characterization -/

/-- A well-typed optional string field decodes successfully, and a decoded
`some` pins the raw field to a string. -/
theorem decodeOptStr_ok (oj : Option Json) (h : optStrOk oj = true) :
    ∃ a, decodeOpt decodeString oj = .ok a ∧
      ∀ s, a = some s → oj = some (.str s) := by
  rcases oj with _ | v
  · exact ⟨none, rfl, by simp⟩
  · cases v with
    | null => exact ⟨none, rfl, by simp⟩
    | str s => exact ⟨some s, rfl, by simp [decodeOpt, decodeString]⟩
    | bool b => simp [optStrOk] at h
    | num n => simp [optStrOk] at h
    | arr es => simp [optStrOk] at h
    | obj fields => simp [optStrOk] at h

/-- A list of JSON strings decodes successfully into a string list. -/
theorem decodeStrings_ok (es : List Json) (h : es.all isStrB = true) :
    ∃ ss, decodeStrings es = .ok ss := by
  induction es with
  | nil => exact ⟨[], rfl⟩
  | cons e rest ih =>
    rw [List.all_cons, Bool.and_eq_true] at h
    rcases ih h.2 with ⟨ss, hss⟩
    cases e with
    | str s => exact ⟨s :: ss, by simp [decodeStrings, hss]⟩
    | null => simp [isStrB] at h
    | bool b => simp [isStrB] at h
    | num n => simp [isStrB] at h
    | arr es2 => simp [isStrB] at h
    | obj fields => simp [isStrB] at h

/-- A well-typed optional string-array field decodes successfully. -/
theorem decodeOptStrList_ok (oj : Option Json) (h : optStrListOk oj = true) :
    ∃ a, decodeOpt decodeStringList oj = .ok a := by
  rcases oj with _ | v
  · exact ⟨none, rfl⟩
  · cases v with
    | null => exact ⟨none, rfl⟩
    | arr es =>
      rcases decodeStrings_ok es (by simpa [optStrListOk] using h) with ⟨ss, hss⟩
      exact ⟨some ss, by simp [decodeOpt, decodeStringList, hss]⟩
    | str s => simp [optStrListOk] at h
    | bool b => simp [optStrListOk] at h
    | num n => simp [optStrListOk] at h
    | obj fields => simp [optStrListOk] at h

/-- A well-typed live payload deserializes into the `Alert` struct. -/
theorem decodeAlert_ok (j : Json) (h : liveWellTypedB j = true) :
    ∃ a, decodeAlert j = .ok a := by
  cases j with
  | obj fields =>
    rw [liveWellTypedB, Bool.and_eq_true, Bool.and_eq_true] at h
    rcases decodeOptStrList_ok _ h.1.1 with ⟨a1, h1⟩
    rcases decodeOptStr_ok _ h.1.2 with ⟨a2, h2, _⟩
    rcases decodeOptStr_ok _ h.2 with ⟨a3, h3, _⟩
    exact ⟨⟨a1, a2, a3⟩, by simp [decodeAlert, h1, h2, h3]⟩
  | null => simp [liveWellTypedB] at h
  | bool b => simp [liveWellTypedB] at h
  | num n => simp [liveWellTypedB] at h
  | str s => simp [liveWellTypedB] at h
  | arr es => simp [liveWellTypedB] at h

/-- A well-typed history entry deserializes into the `HistoryAlert` struct,
and completeness of the decoded entry forces a parseable date. -/
theorem decodeHistoryAlert_ok (parseRfc : String → Except String Int)
    (j : Json) (h : historyEntryOkB parseRfc j = true) :
    ∃ a, decodeHistoryAlert j = .ok a ∧ entryParseOk parseRfc a := by
  cases j with
  | obj fields =>
    rw [historyEntryOkB, Bool.and_eq_true, Bool.and_eq_true,
      Bool.and_eq_true] at h
    rcases decodeOptStr_ok _ h.1.1.1 with ⟨a1, h1, hs1⟩
    rcases decodeOptStr_ok _ h.1.1.2 with ⟨a2, h2, hs2⟩
    rcases decodeOptStr_ok _ h.1.2 with ⟨a3, h3, hs3⟩
    refine ⟨⟨a1, a2, a3⟩, by simp [decodeHistoryAlert, h1, h2, h3], ?_⟩
    intro d hd hdt hct
    simp only at hd hdt hct
    rcases a2 with _ | s2
    · simp at hdt
    · rcases a3 with _ | s3
      · simp at hct
      · have e1 := hs1 d hd
        have e2 := hs2 s2 rfl
        have e3 := hs3 s3 rfl
        rw [e1, e2, e3] at h
        simpa using h.2
  | null => simp [historyEntryOkB] at h
  | bool b => simp [historyEntryOkB] at h
  | num n => simp [historyEntryOkB] at h
  | str s => simp [historyEntryOkB] at h
  | arr es => simp [historyEntryOkB] at h

/-- A well-typed history array deserializes elementwise, every decoded entry
carrying the parseable-date guarantee. -/
theorem decodeHistoryItems_ok (parseRfc : String → Except String Int)
    (es : List Json) (h : es.all (historyEntryOkB parseRfc) = true) :
    ∃ hs, decodeHistoryItems es = .ok hs ∧
      ∀ a ∈ hs, entryParseOk parseRfc a := by
  induction es with
  | nil => exact ⟨[], rfl, by simp⟩
  | cons e rest ih =>
    rw [List.all_cons, Bool.and_eq_true] at h
    rcases decodeHistoryAlert_ok parseRfc e h.1 with ⟨a, ha, hpa⟩
    rcases ih h.2 with ⟨hs, hhs, hps⟩
    refine ⟨a :: hs, by simp [decodeHistoryItems, ha, hhs], ?_⟩
    intro a' ha'
    rcases List.mem_cons.mp ha' with rfl | ha'
    · exact hpa
    · exact hps a' ha'

/-- The history fold never fails when every entry carries the parseable-date
guarantee. -/
theorem historyFold_ok (parseRfc : String → Except String Int) (now : Nat) :
    ∀ (items : List HistoryAlert),
      (∀ a ∈ items, entryParseOk parseRfc a) →
      ∀ alert, ∃ r, historyFold parseRfc now items alert = .ok r := by
  intro items
  induction items with
  | nil => exact fun _ alert => ⟨alert, rfl⟩
  | cons item rest ih =>
    intro h alert
    have hitem := h item (List.mem_cons_self item rest)
    have hrest := fun a ha => h a (List.mem_cons_of_mem item ha)
    obtain ⟨ad, dt, ct⟩ := item
    rcases ad with _ | d <;> rcases dt with _ | city <;>
      rcases ct with _ | category <;> simp only [historyFold]
    all_goals try exact ih hrest alert
    have hparse : (parseRfc d).toOption.isSome = true :=
      hitem d rfl (by simp) (by simp)
    rcases hp : parseRfc d with e | ts
    · rw [hp] at hparse
      simp [Except.toOption] at hparse
    · simp only [hp]
      by_cases hstale : now - Int.toNat (ts % (2 : Int) ^ 64) / 1000 > 120
      · rw [if_pos hstale]
        exact ih hrest alert
      · rw [if_neg hstale]
        by_cases hmark : containsSub (trimStr city) testMarker = true
        · rw [if_pos hmark]
          exact ih hrest alert
        · rw [if_neg hmark]
          exact ih hrest _

/-- C4 (amended): normalization fails on every payload that is neither a
JSON array nor a JSON object; it succeeds on every JSON object whose present
`data`/`cat`/`desc` fields are well-typed (array of strings / string /
string, or `null`), and on every JSON array whose entries are objects with
well-typed optional string fields and parseable dates when complete.
(Not every array/object normalizes: ill-typed contents inside a recognized
shape fail, per the counterexample.) -/
theorem C4_amended_normalize_success (parseRfc : String → Except String Int)
    (now : Nat) (j : Json) :
    (j.isArr = false → j.isObj = false →
      (extract_alert_from_json parseRfc now j).toOption = none) ∧
    (liveWellTypedB j = true →
      (extract_alert_from_json parseRfc now j).toOption.isSome = true) ∧
    (historyWellTypedB parseRfc j = true →
      (extract_alert_from_json parseRfc now j).toOption.isSome = true) := by
  refine ⟨?_, ?_, ?_⟩
  · intro ha ho
    cases j with
    | null => rfl
    | bool b => rfl
    | num n => rfl
    | str s => rfl
    | arr es => simp [Json.isArr] at ha
    | obj fields => simp [Json.isObj] at ho
  · intro h
    cases j with
    | obj fields =>
      rcases decodeAlert_ok _ h with ⟨a, hdec⟩
      rw [extract_alert_from_json]
      rw [if_neg (by simp [Json.isArr])]
      simp only [hdec]
      rcases a.cities with _ | cs <;> rfl
    | null => simp [liveWellTypedB] at h
    | bool b => simp [liveWellTypedB] at h
    | num n => simp [liveWellTypedB] at h
    | str s => simp [liveWellTypedB] at h
    | arr es => simp [liveWellTypedB] at h
  · intro h
    cases j with
    | arr es =>
      rcases decodeHistoryItems_ok parseRfc es
          (by simpa [historyWellTypedB] using h) with ⟨hs, hhs, hps⟩
      rcases historyFold_ok parseRfc now hs hps ⟨"none", [], none⟩
        with ⟨r, hr⟩
      rw [extract_alert_from_json, if_pos (by simp [Json.isArr])]
      simp [extract_alert_from_history_json, hhs, hr, Except.toOption]
    | null => simp [historyWellTypedB] at h
    | bool b => simp [historyWellTypedB] at h
    | num n => simp [historyWellTypedB] at h
    | str s => simp [historyWellTypedB] at h
    | obj fields => simp [historyWellTypedB] at h

/-- C4 amended witness: the three parts at concrete payloads — a number fails,
a well-typed live object succeeds, a well-typed history array succeeds. -/
theorem C4_amended_normalize_success_witness :
    (extract_alert_from_json (fun _ => Except.ok 0) 0
        (Json.num 3)).toOption = none ∧
    (extract_alert_from_json (fun _ => Except.ok 0) 0
        (Json.obj [("data", Json.arr [Json.str "A"]),
          ("cat", Json.str "1")])).toOption.isSome = true ∧
    (extract_alert_from_json (fun _ => Except.ok 0) 0
        (Json.arr [Json.obj [("alertDate", Json.str "D"),
          ("data", Json.str "X"),
          ("category", Json.str "1")]])).toOption.isSome = true :=
  ⟨(C4_amended_normalize_success (fun _ => Except.ok 0) 0 (Json.num 3)).1
      rfl rfl,
    (C4_amended_normalize_success (fun _ => Except.ok 0) 0
        (Json.obj [("data", Json.arr [Json.str "A"]),
          ("cat", Json.str "1")])).2.1 rfl,
    (C4_amended_normalize_success (fun _ => Except.ok 0) 0
        (Json.arr [Json.obj [("alertDate", Json.str "D"),
          ("data", Json.str "X"),
          ("category", Json.str "1")]])).2.2 rfl⟩

/-! ## Claim C5: zone resolution and channel selection -/

/-- Every zone `get_zone_number` produces lies in the production range 1-7. -/
theorem get_zone_number_range (s : String) (z : Nat)
    (h : get_zone_number s = some z) : 1 ≤ z ∧ z ≤ 7 := by
  unfold get_zone_number at h
  split_ifs at h <;> (injection h with h2; omega)

/-- Membership after one zone-collection step. -/
theorem zoneStep_mem (cities : List City) (zs : List Nat) (name : String)
    (z : Nat) :
    z ∈ zoneStep cities zs name ↔
      z ∈ zs ∨ find_zone_for_city cities name = some z := by
  rcases h : find_zone_for_city cities name with _ | zone <;>
    simp only [zoneStep, h]
  · simp
  · by_cases hz : zone ∈ zs
    · simp only [insertZone, if_pos hz]
      constructor
      · exact fun hm => Or.inl hm
      · rintro (hm | hm)
        · exact hm
        · injection hm with hm
          rw [← hm]
          exact hz
    · simp only [insertZone, if_neg hz]
      rw [List.mem_append, List.mem_singleton]
      constructor
      · rintro (hm | rfl)
        · exact Or.inl hm
        · exact Or.inr rfl
      · rintro (hm | hm)
        · exact Or.inl hm
        · injection hm with hm
          exact Or.inr hm.symm

/-- Membership in the zone-collection fold from an arbitrary accumulator. -/
theorem collectZones_mem_aux (cities : List City) :
    ∀ (names : List String) (acc : List Nat) (z : Nat),
      z ∈ names.foldl (zoneStep cities) acc ↔
        z ∈ acc ∨ ∃ name ∈ names, find_zone_for_city cities name = some z := by
  intro names
  induction names with
  | nil => simp
  | cons n rest ih =>
    intro acc z
    rw [List.foldl_cons, ih, zoneStep_mem]
    constructor
    · rintro ((h | h) | h)
      · exact Or.inl h
      · exact Or.inr ⟨n, by simp, h⟩
      · rcases h with ⟨name, hm, hf⟩
        exact Or.inr ⟨name, by simp [hm], hf⟩
    · rintro (h | ⟨name, hm, hf⟩)
      · exact Or.inl (Or.inl h)
      · rcases List.mem_cons.mp hm with rfl | hm
        · exact Or.inl (Or.inr hf)
        · exact Or.inr ⟨name, hm, hf⟩

/-- `valid_zones` contains exactly the zones some alert locality resolves
to. -/
theorem collectValidZones_mem (cities : List City) (names : List String)
    (z : Nat) :
    z ∈ collectValidZones cities names ↔
      ∃ name ∈ names, find_zone_for_city cities name = some z := by
  unfold collectValidZones
  rw [collectZones_mem_aux]
  simp

/-- Set insertion preserves duplicate-freedom. -/
theorem insertZone_nodup (zs : List Nat) (z : Nat) (h : zs.Nodup) :
    (insertZone zs z).Nodup := by
  unfold insertZone
  by_cases hz : z ∈ zs
  · rw [if_pos hz]
    exact h
  · rw [if_neg hz]
    simp [List.nodup_append, h, hz]

/-- One zone-collection step preserves duplicate-freedom. -/
theorem zoneStep_nodup (cities : List City) (zs : List Nat) (name : String)
    (h : zs.Nodup) : (zoneStep cities zs name).Nodup := by
  unfold zoneStep
  rcases find_zone_for_city cities name with _ | zone
  · exact h
  · exact insertZone_nodup zs zone h

/-- `valid_zones` is duplicate-free (it models a `HashSet`). -/
theorem collectValidZones_nodup (cities : List City) (names : List String) :
    (collectValidZones cities names).Nodup := by
  unfold collectValidZones
  suffices h : ∀ acc : List Nat, acc.Nodup →
      (names.foldl (zoneStep cities) acc).Nodup by
    exact h [] List.nodup_nil
  induction names with
  | nil => exact fun acc h => h
  | cons n rest ih =>
    intro acc hacc
    rw [List.foldl_cons]
    exact ih _ (zoneStep_nodup cities acc n hacc)

/-- Under a gazetteer whose region labels are all recognized, a locality
resolves to a zone exactly when it has an exact-match entry. -/
theorem find_zone_isSome_iff_match :
    ∀ (cities : List City),
      (∀ c ∈ cities, (get_zone_number c.zone_en).isSome = true) →
      ∀ name, (find_zone_for_city cities name).isSome
        = cities.any (fun c => c.name == name) := by
  intro cities
  induction cities with
  | nil => intro _ name; rfl
  | cons c rest ih =>
    intro hwf name
    unfold find_zone_for_city
    rw [List.find?_cons]
    by_cases hc : (c.name == name) = true
    · simp only [hc, List.any_cons, Bool.true_or]
      exact hwf c (by simp)
    · simp only [Bool.not_eq_true] at hc
      simp only [hc, List.any_cons, Bool.false_or]
      exact ih (fun c' hc' => hwf c' (List.mem_cons_of_mem c hc')) name

/-- With a spawning transport, a send succeeds on its first attempt, emitting
exactly one event at the paced time. -/
theorem smwr_all_success (outcomes : Nat → Outcome) (st : MessageSender)
    (ctr now chan : Nat) (message : String) (retries delay : Nat)
    (h : (outcomes ctr).spawned = true) :
    send_message_with_retry outcomes st ctr now chan message retries delay
      = ⟨⟨some (paceTime st now)⟩, ctr + 1, paceTime st now,
          [⟨paceTime st now, chan, message, outcomes ctr⟩], true⟩ := by
  unfold send_message_with_retry attemptLoop
  simp [h]

/-- With a spawning transport, the per-zone loop sends exactly one message
per zone, in order, and reports success. -/
theorem sendToZones_all_success (outcomes : Nat → Outcome) (message : String)
    (hok : ∀ n, (outcomes n).spawned = true) :
    ∀ (zones : List Nat) (st : MessageSender) (ctr now : Nat),
      (sendToZones outcomes message zones st ctr now).1.map Event.chan
          = zones ∧
      (sendToZones outcomes message zones st ctr now).2.2.2.2 = .ok () := by
  intro zones
  induction zones with
  | nil => intro st ctr now; exact ⟨rfl, rfl⟩
  | cons z rest ih =>
    intro st ctr now
    unfold sendToZones
    rw [smwr_all_success outcomes st ctr now z message 3 5 (hok ctr)]
    simp only [List.map_append]
    rcases ih ⟨some (paceTime st now)⟩ (ctr + 1) (paceTime st now)
      with ⟨h1, h2⟩
    refine ⟨?_, by simpa using h2⟩
    simp [Event.chan, h1]

/-- C5: for every non-suppressed alert under a well-formed gazetteer and a
spawning transport, `valid_zones` is the duplicate-free set of exactly the
zones (all in 1-7) of localities with an exact-match gazetteer entry
(unmatched localities contribute none), and the cycle performs one send to
broadcast channel 0 when more than 6 zones are affected, otherwise exactly
one send per resolved zone (hence zero sends on an empty zone set). -/
theorem C5_zone_resolution_and_channel_selection
    (outcomes : Nat → Outcome) (cities : List City) (alert : AlertResult)
    (st : MessageSender) (ctr now : Nat)
    (hnone : containsSub alert.alert_type "none" = false)
    (hdrill : containsSub (toLowerStr alert.alert_type) "drill" = false)
    (htest : containsSub (toLowerStr alert.alert_type) "test" = false)
    (hwf : ∀ c ∈ cities, (get_zone_number c.zone_en).isSome = true)
    (hok : ∀ n, (outcomes n).spawned = true) :
    (collectValidZones cities alert.cities).Nodup ∧
    (∀ z, z ∈ collectValidZones cities alert.cities ↔
      ∃ name ∈ alert.cities, find_zone_for_city cities name = some z) ∧
    (∀ z ∈ collectValidZones cities alert.cities, 1 ≤ z ∧ z ≤ 7) ∧
    (∀ name, (find_zone_for_city cities name).isSome
      = cities.any (fun c => c.name == name)) ∧
    ((process_alert outcomes cities (Except.ok alert) st ctr now
        ).outcome.events.map Event.chan
      = if (collectValidZones cities alert.cities).length > 6 then [0]
        else collectValidZones cities alert.cities) := by
  refine ⟨collectValidZones_nodup cities alert.cities,
    fun z => collectValidZones_mem cities alert.cities z, ?_, ?_, ?_⟩
  · intro z hz
    rcases (collectValidZones_mem cities alert.cities z).mp hz
      with ⟨name, _, hf⟩
    unfold find_zone_for_city at hf
    rcases hfind : List.find? (fun c => c.name == name) cities with _ | c <;>
      simp only [hfind] at hf
    · exact absurd hf (by simp)
    · exact get_zone_number_range _ z hf
  · exact find_zone_isSome_iff_match cities hwf
  · simp only [process_alert, hnone, Bool.not_false, if_true, hdrill, htest,
      Bool.or_self, Bool.false_eq_true, if_false]
    by_cases hlen : (collectValidZones cities alert.cities).length > 6
    · rw [if_pos hlen, if_pos hlen]
      rw [smwr_all_success outcomes st ctr now 0 _ 3 5 (hok ctr)]
      rfl
    · rw [if_neg hlen, if_neg hlen]
      exact (sendToZones_all_success outcomes _ hok
        (collectValidZones cities alert.cities) st ctr now).1

/-- C5 witness: one gazetteer-matched locality yields a single send on the
zone's channel (zone 4 for region `Dan`). -/
theorem C5_zone_resolution_and_channel_selection_witness :
    (collectValidZones [⟨"תל אביב", "Tel Aviv", "Dan"⟩] ["תל אביב"]).Nodup ∧
    (∀ z, z ∈ collectValidZones [⟨"תל אביב", "Tel Aviv", "Dan"⟩] ["תל אביב"] ↔
      ∃ name ∈ ["תל אביב"],
        find_zone_for_city [⟨"תל אביב", "Tel Aviv", "Dan"⟩] name = some z) ∧
    (∀ z ∈ collectValidZones [⟨"תל אביב", "Tel Aviv", "Dan"⟩] ["תל אביב"],
      1 ≤ z ∧ z ≤ 7) ∧
    (∀ name,
      (find_zone_for_city [⟨"תל אביב", "Tel Aviv", "Dan"⟩] name).isSome
        = [(⟨"תל אביב", "Tel Aviv", "Dan"⟩ : City)].any
            (fun c => c.name == name)) ∧
    ((process_alert (fun _ => ⟨true, 0⟩) [⟨"תל אביב", "Tel Aviv", "Dan"⟩]
        (Except.ok ⟨"missiles", ["תל אביב"], none⟩) ⟨none⟩ 0 0
        ).outcome.events.map Event.chan
      = if (collectValidZones [⟨"תל אביב", "Tel Aviv", "Dan"⟩]
            ["תל אביב"]).length > 6 then [0]
        else collectValidZones [⟨"תל אביב", "Tel Aviv", "Dan"⟩] ["תל אביב"]) :=
  C5_zone_resolution_and_channel_selection (fun _ => ⟨true, 0⟩)
    [⟨"תל אביב", "Tel Aviv", "Dan"⟩] ⟨"missiles", ["תל אביב"], none⟩
    ⟨none⟩ 0 0 rfl rfl rfl (by decide) (fun _ => rfl)

/-! ## Retry-loop lemmas shared by the pacing and retry claims -/

/-- The clock never runs backwards through the retry loop. -/
theorem attemptLoop_now_ge (outcomes : Nat → Outcome) (chan : Nat)
    (message : String) (delay : Nat) :
    ∀ (fuel ctr now : Nat),
      now ≤ (attemptLoop outcomes chan message delay fuel ctr now).now := by
  intro fuel
  induction fuel with
  | zero => intro ctr now; simp [attemptLoop]
  | succ n ih =>
    intro ctr now
    simp only [attemptLoop]
    by_cases hs : (outcomes ctr).spawned = true
    · simp [hs]
    · simp only [Bool.not_eq_true] at hs
      simp only [hs, Bool.false_eq_true, if_false]
      by_cases hn : (n == 0) = true
      · simp [hn]
      · simp only [hn, Bool.false_eq_true, if_false]
        exact le_trans (Nat.le_add_right now delay) (ih (ctr + 1) (now + delay))

/-- Every attempt of the retry loop happens at or after the loop's start
time. -/
theorem attemptLoop_time_ge (outcomes : Nat → Outcome) (chan : Nat)
    (message : String) (delay : Nat) :
    ∀ (fuel ctr now : Nat),
      ∀ e ∈ (attemptLoop outcomes chan message delay fuel ctr now).events,
        now ≤ e.time := by
  intro fuel
  induction fuel with
  | zero => intro ctr now e he; simp [attemptLoop] at he
  | succ n ih =>
    intro ctr now e he
    simp only [attemptLoop] at he
    by_cases hs : (outcomes ctr).spawned = true
    · simp [hs] at he
      rw [he]
    · simp only [Bool.not_eq_true] at hs
      simp only [hs, Bool.false_eq_true, if_false] at he
      by_cases hn : (n == 0) = true
      · simp [hn] at he
        rw [he]
      · simp only [hn, Bool.false_eq_true, if_false] at he
        rcases List.mem_cons.mp he with rfl | he
        · rfl
        · exact le_trans (Nat.le_add_right now delay) (ih (ctr + 1) (now + delay) e he)

/-- A successful retry loop's reported time is the success time. -/
theorem attemptLoop_succ_eq (outcomes : Nat → Outcome) (chan : Nat)
    (message : String) (delay : Nat) :
    ∀ (fuel ctr now t : Nat),
      (attemptLoop outcomes chan message delay fuel ctr now).succTime = some t →
      t = (attemptLoop outcomes chan message delay fuel ctr now).now := by
  intro fuel
  induction fuel with
  | zero => intro ctr now t ht; simp [attemptLoop] at ht
  | succ n ih =>
    intro ctr now t ht
    simp only [attemptLoop] at ht ⊢
    by_cases hs : (outcomes ctr).spawned = true
    · simp [hs] at ht ⊢
      exact ht.symm
    · simp only [Bool.not_eq_true] at hs
      simp only [hs, Bool.false_eq_true, if_false] at ht ⊢
      by_cases hn : (n == 0) = true
      · simp [hn] at ht
      · simp only [hn, Bool.false_eq_true, if_false] at ht ⊢
        exact ih (ctr + 1) (now + delay) t ht

/-- The retry loop records exactly one successful spawn when it reports
success, and none when it reports failure. -/
theorem attemptLoop_successTimes (outcomes : Nat → Outcome) (chan : Nat)
    (message : String) (delay : Nat) :
    ∀ (fuel ctr now : Nat),
      successTimes (attemptLoop outcomes chan message delay fuel ctr now).events
        = match (attemptLoop outcomes chan message delay fuel ctr now).succTime
          with
          | some t => [t]
          | none => [] := by
  intro fuel
  induction fuel with
  | zero => intro ctr now; simp [attemptLoop, successTimes]
  | succ n ih =>
    intro ctr now
    simp only [attemptLoop]
    by_cases hs : (outcomes ctr).spawned = true
    · simp [hs, successTimes]
    · simp only [Bool.not_eq_true] at hs
      simp only [hs, Bool.false_eq_true, if_false]
      by_cases hn : (n == 0) = true
      · simp [hn, successTimes, hs]
      · simp only [hn, Bool.false_eq_true, if_false]
        simp only [successTimes, List.filter_cons, hs, Bool.false_eq_true,
          if_false]
        exact ih (ctr + 1) (now + delay)

/-- The retry loop makes at most `fuel` attempts. -/
theorem attemptLoop_len_le (outcomes : Nat → Outcome) (chan : Nat)
    (message : String) (delay : Nat) :
    ∀ (fuel ctr now : Nat),
      (attemptLoop outcomes chan message delay fuel ctr now).events.length
        ≤ fuel := by
  intro fuel
  induction fuel with
  | zero => intro ctr now; simp [attemptLoop]
  | succ n ih =>
    intro ctr now
    simp only [attemptLoop]
    by_cases hs : (outcomes ctr).spawned = true
    · simp [hs]
    · simp only [Bool.not_eq_true] at hs
      simp only [hs, Bool.false_eq_true, if_false]
      by_cases hn : (n == 0) = true
      · simp [hn]
      · simp only [hn, Bool.false_eq_true, if_false, List.length_cons]
        exact Nat.succ_le_succ (ih (ctr + 1) (now + delay))

/-- With at least one attempt allowed, the retry loop makes at least one
attempt, the first at the loop's start time. -/
theorem attemptLoop_events_shape (outcomes : Nat → Outcome) (chan : Nat)
    (message : String) (delay : Nat) (n ctr now : Nat) :
    ∃ tail,
      (attemptLoop outcomes chan message delay (n + 1) ctr now).events
        = (⟨now, chan, message, outcomes ctr⟩ : Event) :: tail := by
  simp only [attemptLoop]
  by_cases hs : (outcomes ctr).spawned = true
  · exact ⟨[], by simp [hs]⟩
  · simp only [Bool.not_eq_true] at hs
    simp only [hs, Bool.false_eq_true, if_false]
    by_cases hn : (n == 0) = true
    · exact ⟨[], by simp [hn]⟩
    · simp only [hn, Bool.false_eq_true, if_false]
      exact ⟨_, rfl⟩

/-- Consecutive attempts of one retry loop are exactly `delay` seconds
apart. -/
theorem attemptLoop_chain (outcomes : Nat → Outcome) (chan : Nat)
    (message : String) (delay : Nat) :
    ∀ (fuel ctr now : Nat),
      List.Chain' (fun a b => b = a + delay)
        ((attemptLoop outcomes chan message delay fuel ctr now).events.map
          Event.time) := by
  intro fuel
  induction fuel with
  | zero => intro ctr now; simp [attemptLoop]
  | succ n ih =>
    intro ctr now
    simp only [attemptLoop]
    by_cases hs : (outcomes ctr).spawned = true
    · simp [hs]
    · simp only [Bool.not_eq_true] at hs
      simp only [hs, Bool.false_eq_true, if_false]
      by_cases hn : (n == 0) = true
      · simp [hn]
      · simp only [hn, Bool.false_eq_true, if_false]
        rcases Nat.exists_eq_succ_of_ne_zero (by simpa using hn) with ⟨m, rfl⟩
        rcases attemptLoop_events_shape outcomes chan message delay m (ctr + 1)
          (now + delay) with ⟨tail, htail⟩
        rw [List.map_cons, htail, List.map_cons, List.chain'_cons]
        constructor
        · rfl
        · have := ih (ctr + 1) (now + delay)
          rw [htail, List.map_cons] at this
          exact this

/-- The retry loop reports success exactly when some attempt's spawn
succeeded. -/
theorem attemptLoop_ok_any (outcomes : Nat → Outcome) (chan : Nat)
    (message : String) (delay : Nat) :
    ∀ (fuel ctr now : Nat),
      (attemptLoop outcomes chan message delay fuel ctr now).succTime.isSome
        = (attemptLoop outcomes chan message delay fuel ctr now).events.any
            (fun e => e.outcome.spawned) := by
  intro fuel
  induction fuel with
  | zero => intro ctr now; simp [attemptLoop]
  | succ n ih =>
    intro ctr now
    simp only [attemptLoop]
    by_cases hs : (outcomes ctr).spawned = true
    · simp [hs]
    · simp only [Bool.not_eq_true] at hs
      simp only [hs, Bool.false_eq_true, if_false]
      by_cases hn : (n == 0) = true
      · simp [hn, hs]
      · simp only [hn, Bool.false_eq_true, if_false, List.any_cons, hs,
          Bool.false_or]
        exact ih (ctr + 1) (now + delay)

/-! ## Send-level lemmas -/

/-- The pacing wait never moves the clock backwards. -/
theorem paceTime_ge (st : MessageSender) (now : Nat) :
    now ≤ paceTime st now := by
  rcases st with ⟨_ | l⟩
  · exact le_refl now
  · simp only [paceTime]
    split_ifs <;> omega

/-- Pacing enforces the 10-second floor over the stored last send time. -/
theorem paceTime_floor (st : MessageSender) (now l : Nat)
    (hl : st.last_message_time = some l) (hle : l ≤ now) :
    l + 10 ≤ paceTime st now := by
  rcases st with ⟨last⟩
  simp only at hl
  subst hl
  simp only [paceTime]
  split_ifs <;> omega

/-- The send's observable fields in terms of its retry loop. -/
theorem smwr_unfold (outcomes : Nat → Outcome) (st : MessageSender)
    (ctr now chan : Nat) (message : String) (retries delay : Nat) :
    (send_message_with_retry outcomes st ctr now chan message retries
        delay).events
      = (attemptLoop outcomes chan message delay (retries + 1) ctr
          (paceTime st now)).events ∧
    (send_message_with_retry outcomes st ctr now chan message retries
        delay).now
      = (attemptLoop outcomes chan message delay (retries + 1) ctr
          (paceTime st now)).now ∧
    (send_message_with_retry outcomes st ctr now chan message retries
        delay).ok
      = (attemptLoop outcomes chan message delay (retries + 1) ctr
          (paceTime st now)).succTime.isSome ∧
    (send_message_with_retry outcomes st ctr now chan message retries
        delay).state
      = match (attemptLoop outcomes chan message delay (retries + 1) ctr
          (paceTime st now)).succTime with
        | some t => (⟨some t⟩ : MessageSender)
        | none => st := by
  unfold send_message_with_retry
  rcases h : (attemptLoop outcomes chan message delay (retries + 1) ctr
    (paceTime st now)).succTime with _ | t <;> simp [h]

/-- A successful send records exactly one successful spawn, at the reported
time, and stores that time as the new `last_message_time`. -/
theorem smwr_ok_fields (outcomes : Nat → Outcome) (st : MessageSender)
    (ctr now chan : Nat) (message : String) (retries delay : Nat)
    (h : (send_message_with_retry outcomes st ctr now chan message retries
      delay).ok = true) :
    successTimes (send_message_with_retry outcomes st ctr now chan message
        retries delay).events
      = [(send_message_with_retry outcomes st ctr now chan message retries
          delay).now] ∧
    (send_message_with_retry outcomes st ctr now chan message retries
        delay).state
      = ⟨some (send_message_with_retry outcomes st ctr now chan message
          retries delay).now⟩ := by
  obtain ⟨hev, hnow, hok, hstate⟩ :=
    smwr_unfold outcomes st ctr now chan message retries delay
  rw [hok] at h
  rcases hs : (attemptLoop outcomes chan message delay (retries + 1) ctr
    (paceTime st now)).succTime with _ | t
  · rw [hs] at h
    simp at h
  · have ht := attemptLoop_succ_eq outcomes chan message delay (retries + 1)
      ctr (paceTime st now) t hs
    have hst := attemptLoop_successTimes outcomes chan message delay
      (retries + 1) ctr (paceTime st now)
    rw [hs] at hst hstate
    constructor
    · rw [hev, hst, hnow, ht]
    · rw [hstate, hnow, ht]

/-- A failed send records no successful spawn and leaves the sender state
unchanged. -/
theorem smwr_fail_fields (outcomes : Nat → Outcome) (st : MessageSender)
    (ctr now chan : Nat) (message : String) (retries delay : Nat)
    (h : (send_message_with_retry outcomes st ctr now chan message retries
      delay).ok = false) :
    successTimes (send_message_with_retry outcomes st ctr now chan message
        retries delay).events = [] ∧
    (send_message_with_retry outcomes st ctr now chan message retries
        delay).state = st := by
  obtain ⟨hev, hnow, hok, hstate⟩ :=
    smwr_unfold outcomes st ctr now chan message retries delay
  rw [hok] at h
  rcases hs : (attemptLoop outcomes chan message delay (retries + 1) ctr
    (paceTime st now)).succTime with _ | t
  · have hst := attemptLoop_successTimes outcomes chan message delay
      (retries + 1) ctr (paceTime st now)
    rw [hs] at hst hstate
    exact ⟨by rw [hev, hst], hstate⟩
  · rw [hs] at h
    simp at h

/-- The clock never runs backwards through a send. -/
theorem smwr_now_ge (outcomes : Nat → Outcome) (st : MessageSender)
    (ctr now chan : Nat) (message : String) (retries delay : Nat) :
    now ≤ (send_message_with_retry outcomes st ctr now chan message retries
      delay).now := by
  obtain ⟨_, hnow, _, _⟩ :=
    smwr_unfold outcomes st ctr now chan message retries delay
  rw [hnow]
  exact le_trans (paceTime_ge st now)
    (attemptLoop_now_ge outcomes chan message delay (retries + 1) ctr
      (paceTime st now))

/-- A send finishes at least 10 seconds after the stored last send time. -/
theorem smwr_floor (outcomes : Nat → Outcome) (st : MessageSender)
    (ctr now chan : Nat) (message : String) (retries delay : Nat) (l : Nat)
    (hl : st.last_message_time = some l) (hle : l ≤ now) :
    l + 10 ≤ (send_message_with_retry outcomes st ctr now chan message
      retries delay).now := by
  obtain ⟨_, hnow, _, _⟩ :=
    smwr_unfold outcomes st ctr now chan message retries delay
  rw [hnow]
  exact le_trans (paceTime_floor st now l hl hle)
    (attemptLoop_now_ge outcomes chan message delay (retries + 1) ctr
      (paceTime st now))

/-- Splitting the successful-spawn times of concatenated event lists. -/
theorem successTimes_append (a b : List Event) :
    successTimes (a ++ b) = successTimes a ++ successTimes b := by
  simp [successTimes, List.filter_append]

/-! ## Claim C6: the global 10-second pacing invariant -/

/-- C6: across any trace of send calls over the whole process lifetime, the
times of consecutive successful sends (prefixed by any pre-existing
`last_message_time`) are at least 10 seconds apart — a send whose elapsed
time since `last_message_time` is under 10 seconds is suspended until the
floor is met — and the final `last_message_time` is the time of the last
successful send (unchanged when there is none). -/
theorem C6_global_pacing (outcomes : Nat → Outcome) (calls : List SendCall) :
    ∀ (st : MessageSender) (ctr now : Nat),
      (∀ l, st.last_message_time = some l → l ≤ now) →
      List.Chain' (fun a b => a + 10 ≤ b)
        (lastList st
          ++ successTimes (runCalls outcomes calls st ctr now).1) ∧
      (runCalls outcomes calls st ctr now).2.1.last_message_time
        = lastOr (successTimes (runCalls outcomes calls st ctr now).1)
            st.last_message_time := by
  induction calls with
  | nil =>
    intro st ctr now hinv
    refine ⟨?_, rfl⟩
    rcases st with ⟨_ | l⟩ <;> simp [lastList, runCalls, successTimes]
  | cons c rest ih =>
    intro st ctr now hinv
    simp only [runCalls]
    set S := send_message_with_retry outcomes st ctr (now + c.gap) c.chan
      c.message 3 5 with hS
    by_cases hok : S.ok = true
    · obtain ⟨hst, hstate⟩ := smwr_ok_fields outcomes st ctr (now + c.gap)
        c.chan c.message 3 5 hok
      have hinv2 : ∀ l, S.state.last_message_time = some l → l ≤ S.now := by
        rw [← hS] at hstate
        rw [hstate]
        intro l hl
        injection hl with hl
        omega
      obtain ⟨ihchain, ihstate⟩ := ih S.state S.ctr S.now hinv2
      rw [← hS] at hst hstate
      have hll : lastList S.state = [S.now] := by rw [hstate]; rfl
      have hsl : S.state.last_message_time = some S.now := by rw [hstate]
      rw [hll] at ihchain
      rw [hsl] at ihstate
      constructor
      · rw [successTimes_append, hst]
        rcases hlast : st.last_message_time with _ | l
        · have h0 : lastList st = [] := by simp [lastList, hlast]
          rw [h0, List.nil_append]
          exact ihchain
        · have h1 : lastList st = [l] := by simp [lastList, hlast]
          rw [h1]
          have hfloor : l + 10 ≤ S.now := by
            rw [hS]
            exact smwr_floor outcomes st ctr (now + c.gap) c.chan c.message
              3 5 l hlast (le_trans (hinv l hlast) (Nat.le_add_right now c.gap))
          simp only [List.singleton_append]
          refine List.chain'_cons.mpr ⟨hfloor, ?_⟩
          simpa [List.singleton_append] using ihchain
      · rw [successTimes_append, hst, ihstate]
        rfl
    · have hok' : S.ok = false := by simpa using hok
      rw [hS] at hok'
      obtain ⟨hst, hstate⟩ := smwr_fail_fields outcomes st ctr (now + c.gap)
        c.chan c.message 3 5 hok'
      rw [← hS] at hst hstate
      have hinv2 : ∀ l, S.state.last_message_time = some l → l ≤ S.now := by
        rw [hstate]
        intro l hl
        refine le_trans (hinv l hl) (le_trans (Nat.le_add_right now c.gap) ?_)
        rw [hS]
        exact smwr_now_ge outcomes st ctr (now + c.gap) c.chan c.message 3 5
      obtain ⟨ihchain, ihstate⟩ := ih S.state S.ctr S.now hinv2
      have hll : lastList S.state = lastList st := by rw [hstate]
      have hsl : S.state.last_message_time = st.last_message_time := by
        rw [hstate]
      rw [hll] at ihchain
      rw [hsl] at ihstate
      constructor
      · rw [successTimes_append, hst, List.nil_append]
        exact ihchain
      · rw [successTimes_append, hst, List.nil_append, ihstate]

/-- C6 witness: two back-to-back calls with an always-spawning transport from
a fresh state send at times 0 and 10 — 10 seconds apart — and store 10. -/
theorem C6_global_pacing_witness :
    List.Chain' (fun a b => a + 10 ≤ b)
      (lastList ⟨none⟩
        ++ successTimes (runCalls (fun _ => ⟨true, 0⟩)
            [⟨0, 1, "a"⟩, ⟨0, 2, "b"⟩] ⟨none⟩ 0 0).1) ∧
    (runCalls (fun _ => ⟨true, 0⟩) [⟨0, 1, "a"⟩, ⟨0, 2, "b"⟩]
        ⟨none⟩ 0 0).2.1.last_message_time
      = lastOr (successTimes (runCalls (fun _ => ⟨true, 0⟩)
          [⟨0, 1, "a"⟩, ⟨0, 2, "b"⟩] ⟨none⟩ 0 0).1)
          (⟨none⟩ : MessageSender).last_message_time :=
  C6_global_pacing (fun _ => ⟨true, 0⟩) [⟨0, 1, "a"⟩, ⟨0, 2, "b"⟩]
    ⟨none⟩ 0 0 (fun _ hl => Option.noConfusion hl)

/-! ## Claim C7: the amended retry policy -/

/-- A retry loop that never succeeds uses its whole attempt budget. -/
theorem attemptLoop_len_of_fail (outcomes : Nat → Outcome) (chan : Nat)
    (message : String) (delay : Nat) :
    ∀ (fuel ctr now : Nat),
      (attemptLoop outcomes chan message delay fuel ctr now).succTime = none →
      (attemptLoop outcomes chan message delay fuel ctr now).events.length
        = fuel := by
  intro fuel
  induction fuel with
  | zero => intro ctr now _; simp [attemptLoop]
  | succ n ih =>
    intro ctr now hf
    simp only [attemptLoop] at hf ⊢
    by_cases hs : (outcomes ctr).spawned = true
    · simp [hs] at hf
    · simp only [Bool.not_eq_true] at hs
      simp only [hs, Bool.false_eq_true, if_false] at hf ⊢
      by_cases hn : (n == 0) = true
      · simp only [hn, if_true, List.length_singleton]
        have : n = 0 := by simpa using hn
        omega
      · simp only [hn, Bool.false_eq_true, if_false, List.length_cons] at hf ⊢
        rw [ih (ctr + 1) (now + delay) hf]

/-- A cycle whose fetch succeeded never aborts the process, whatever the
transport does (a failed dispatch surfaces as a completed cycle carrying an
error, which the loop recovers). -/
theorem process_alert_ok_no_panic (outcomes : Nat → Outcome)
    (cities : List City) (alert : AlertResult) (st : MessageSender)
    (ctr now : Nat) :
    (process_alert outcomes cities (Except.ok alert) st ctr
      now).outcome.isPanic = false := by
  simp only [process_alert]
  split_ifs <;> rfl

/-- C7 (amended): each send makes between 1 and 4 attempts (3 retries after
the first), consecutive attempts exactly 5 seconds apart; the send succeeds
exactly when some attempt's `Command::spawn` succeeded — the spawned
process's exit code is never consulted (the child is not awaited) — a send
that exhausts all 4 attempts leaves the pacing state unchanged and returns
the dispatch error, and no transport failure aborts the process. -/
theorem C7_amended_retry_policy (outcomes : Nat → Outcome)
    (st : MessageSender) (ctr now chan : Nat) (message : String) :
    1 ≤ (send_message_with_retry outcomes st ctr now chan message 3
        5).events.length ∧
    (send_message_with_retry outcomes st ctr now chan message 3
        5).events.length ≤ 4 ∧
    List.Chain' (fun a b => b = a + 5)
      ((send_message_with_retry outcomes st ctr now chan message 3
        5).events.map Event.time) ∧
    (send_message_with_retry outcomes st ctr now chan message 3 5).ok
      = (send_message_with_retry outcomes st ctr now chan message 3
          5).events.any (fun e => e.outcome.spawned) ∧
    ((send_message_with_retry outcomes st ctr now chan message 3 5).ok
        = false →
      (send_message_with_retry outcomes st ctr now chan message 3
          5).events.length = 4 ∧
      (send_message_with_retry outcomes st ctr now chan message 3 5).state
        = st) ∧
    (∀ (cities : List City) (alert : AlertResult) (st2 : MessageSender)
        (ctr2 now2 : Nat),
      (process_alert outcomes cities (Except.ok alert) st2 ctr2
        now2).outcome.isPanic = false) := by
  obtain ⟨hev, hnow, hok, hstate⟩ :=
    smwr_unfold outcomes st ctr now chan message 3 5
  refine ⟨?_, ?_, ?_, ?_, ?_, ?_⟩
  · rw [hev]
    rcases attemptLoop_events_shape outcomes chan message 5 3 ctr
      (paceTime st now) with ⟨tail, htail⟩
    rw [htail]
    simp
  · rw [hev]
    exact attemptLoop_len_le outcomes chan message 5 4 ctr (paceTime st now)
  · rw [hev]
    exact attemptLoop_chain outcomes chan message 5 4 ctr (paceTime st now)
  · rw [hev, hok]
    exact attemptLoop_ok_any outcomes chan message 5 4 ctr (paceTime st now)
  · intro hfail
    rw [hok] at hfail
    rcases hs : (attemptLoop outcomes chan message 5 4 ctr
      (paceTime st now)).succTime with _ | t
    · constructor
      · rw [hev]
        exact attemptLoop_len_of_fail outcomes chan message 5 4 ctr
          (paceTime st now) hs
      · rw [hstate, hs]
    · rw [hs] at hfail
      simp at hfail
  · intro cities alert st2 ctr2 now2
    exact process_alert_ok_no_panic outcomes cities alert st2 ctr2 now2

/-- C7 amended witness: with a transport that never spawns, a send makes
exactly 4 attempts, leaves the state unchanged, and a cycle with such a
transport still completes without aborting the process. -/
theorem C7_amended_retry_policy_witness :
    (send_message_with_retry (fun _ => ⟨false, 1⟩) ⟨none⟩ 0 0 2 "m" 3
        5).events.length = 4 ∧
    (send_message_with_retry (fun _ => ⟨false, 1⟩) ⟨none⟩ 0 0 2 "m" 3
        5).state = ⟨none⟩ ∧
    (process_alert (fun _ => ⟨false, 1⟩) []
      (Except.ok ⟨"missiles", [], none⟩) ⟨none⟩ 0 0).outcome.isPanic
        = false :=
  ⟨((C7_amended_retry_policy (fun _ => ⟨false, 1⟩) ⟨none⟩ 0 0 2
      "m").2.2.2.2.1 rfl).1,
    ((C7_amended_retry_policy (fun _ => ⟨false, 1⟩) ⟨none⟩ 0 0 2
      "m").2.2.2.2.1 rfl).2,
    (C7_amended_retry_policy (fun _ => ⟨false, 1⟩) ⟨none⟩ 0 0 2
      "m").2.2.2.2.2 [] ⟨"missiles", [], none⟩ ⟨none⟩ 0 0⟩

/-! ## Claim C10: the amended message text -/

/-- Every retry-loop attempt carries the loop's message text. -/
theorem attemptLoop_message (outcomes : Nat → Outcome) (chan : Nat)
    (message : String) (delay : Nat) :
    ∀ (fuel ctr now : Nat),
      ∀ e ∈ (attemptLoop outcomes chan message delay fuel ctr now).events,
        e.message = message := by
  intro fuel
  induction fuel with
  | zero => intro ctr now e he; simp [attemptLoop] at he
  | succ n ih =>
    intro ctr now e he
    simp only [attemptLoop] at he
    by_cases hs : (outcomes ctr).spawned = true
    · simp [hs] at he
      rw [he]
    · simp only [Bool.not_eq_true] at hs
      simp only [hs, Bool.false_eq_true, if_false] at he
      by_cases hn : (n == 0) = true
      · simp [hn] at he
        rw [he]
      · simp only [hn, Bool.false_eq_true, if_false] at he
        rcases List.mem_cons.mp he with rfl | he
        · rfl
        · exact ih (ctr + 1) (now + delay) e he

/-- Every attempt of one send carries the send's message text. -/
theorem smwr_message (outcomes : Nat → Outcome) (st : MessageSender)
    (ctr now chan : Nat) (message : String) (retries delay : Nat) :
    ∀ e ∈ (send_message_with_retry outcomes st ctr now chan message retries
        delay).events, e.message = message := by
  intro e he
  obtain ⟨hev, _, _, _⟩ :=
    smwr_unfold outcomes st ctr now chan message retries delay
  rw [hev] at he
  exact attemptLoop_message outcomes chan message delay (retries + 1) ctr
    (paceTime st now) e he

/-- Every attempt of the per-zone send loop carries the loop's message
text. -/
theorem sendToZones_message (outcomes : Nat → Outcome) (message : String) :
    ∀ (zones : List Nat) (st : MessageSender) (ctr now : Nat),
      ∀ e ∈ (sendToZones outcomes message zones st ctr now).1,
        e.message = message := by
  intro zones
  induction zones with
  | nil => intro st ctr now e he; simp [sendToZones] at he
  | cons z rest ih =>
    intro st ctr now e he
    simp only [sendToZones] at he
    by_cases hok : (send_message_with_retry outcomes st ctr now z message 3
        5).ok = true
    · simp only [hok, if_true] at he
      rcases List.mem_append.mp he with he | he
      · exact smwr_message outcomes st ctr now z message 3 5 e he
      · exact ih _ _ _ e he
    · simp only [Bool.not_eq_true] at hok
      simp only [hok, Bool.false_eq_true, if_false] at he
      exact smwr_message outcomes st ctr now z message 3 5 e he

/-- C10 (amended): every message a dispatched cycle sends is exactly
`🚨{alert_type} - {instructions:?}` when instructions are present — the
instructions rendered in Rust `Debug` form, wrapped in double quotes with
escapes — and exactly `🚨{alert_type}` otherwise. -/
theorem C10_amended_message_text (outcomes : Nat → Outcome)
    (cities : List City) (alert : AlertResult) (st : MessageSender)
    (ctr now : Nat) (e : Event)
    (he : e ∈ (process_alert outcomes cities (Except.ok alert) st ctr
      now).outcome.events) :
    e.message
      = match alert.instructions with
        | some ins => "🚨" ++ alert.alert_type ++ " - " ++ rustDebug ins
        | none => "🚨" ++ alert.alert_type := by
  have hmsg : e.message = alertMessage alert.alert_type alert.instructions := by
    by_cases hn : containsSub alert.alert_type "none" = true
    · simp [process_alert, hn, CycleOutcome.events] at he
    · by_cases hd : (containsSub (toLowerStr alert.alert_type) "drill"
          || containsSub (toLowerStr alert.alert_type) "test") = true
      · simp [process_alert, hn, hd, CycleOutcome.events] at he
      · by_cases hlen : (collectValidZones cities alert.cities).length > 6
        · simp only [process_alert, hn, Bool.not_false, if_true, hd,
            Bool.false_eq_true, if_false, hlen, CycleOutcome.events] at he
          exact smwr_message outcomes st ctr now 0 _ 3 5 e he
        · simp only [process_alert, hn, Bool.not_false, if_true, hd,
            Bool.false_eq_true, if_false, hlen, CycleOutcome.events] at he
          exact sendToZones_message outcomes _ _ st ctr now e he
  rw [hmsg]
  rcases alert.instructions with _ | ins <;> rfl

/-- C10 amended witness: the one message of a concrete dispatched cycle is
the caution emoji, the type, a separator, and the Debug-quoted
instructions. -/
theorem C10_amended_message_text_witness :
    (⟨0, 4, "🚨missiles - \"Rocket fire\"", ⟨true, 0⟩⟩ : Event)
        ∈ (process_alert (fun _ => ⟨true, 0⟩)
          [⟨"תל אביב", "Tel Aviv", "Dan"⟩]
          (Except.ok ⟨"missiles", ["תל אביב"], some "Rocket fire"⟩)
          ⟨none⟩ 0 0).outcome.events ∧
    (⟨0, 4, "🚨missiles - \"Rocket fire\"", ⟨true, 0⟩⟩ : Event).message
      = match (⟨"missiles", ["תל אביב"], some "Rocket fire"⟩
          : AlertResult).instructions with
        | some ins => "🚨" ++ ("missiles" : String) ++ " - " ++ rustDebug ins
        | none => "🚨" ++ ("missiles" : String) :=
  ⟨by decide, C10_amended_message_text (fun _ => ⟨true, 0⟩)
    [⟨"תל אביב", "Tel Aviv", "Dan"⟩]
    ⟨"missiles", ["תל אביב"], some "Rocket fire"⟩ ⟨none⟩ 0 0
    ⟨0, 4, "🚨missiles - \"Rocket fire\"", ⟨true, 0⟩⟩ (by decide)⟩
